import Mathlib

/-!
Shallow embedding of `src/TunnelReduction.c`: the SAT reduction of bounded
reachability over a tunnel network with an auxiliary two-symbol stack.

Solver propositions are identified with their creation names (the collaborator
`mk_bool_var` interns a boolean variable by its name string), and a solver
model is a boolean valuation of names.  All `snprintf` buffers in the source
are 60 bytes while the longest possible generated name (three 32-bit `int`
fields plus fixed text) stays below 60 characters, so plain string
concatenation reproduces the C names exactly.
-/

/-- A solver model: a boolean valuation of proposition names
(`value_of_var_in_model`). -/
abbrev TnModel : Type := String → Bool

/-- The network collaborator (`TunnelNetwork.h` accessors used by the file):
node count, initial node, final node, display name. -/
structure TunnelNetwork where
  numNodes : Nat
  initial : Int
  final : Int
  nodeName : Nat → String

/-- `tn_path_variable`: the proposition named
`"node %d,pos %d, height %d"`. -/
def tn_path_variable (node pos height : Int) : String :=
  "node " ++ toString node ++ ",pos " ++ toString pos ++ ", height " ++ toString height

/-- `tn_4_variable`: the proposition named `"4 at height %d on pos %d"`. -/
def tn_4_variable (pos height : Int) : String :=
  "4 at height " ++ toString height ++ " on pos " ++ toString pos

/-- `tn_6_variable`: the proposition named `"6 at height %d on pos %d"`. -/
def tn_6_variable (pos height : Int) : String :=
  "6 at height " ++ toString height ++ " on pos " ++ toString pos

/-- `get_stack_size`: `length / 2 + 1` (C `int` division agrees with `Nat`
division for the nonnegative lengths considered). -/
def get_stack_size (length : Nat) : Nat := length / 2 + 1

/-- One literal of a conjunction of literals: the proposition name together
with the polarity it is constrained to (`true` for the variable itself,
`false` for its `Z3_mk_not`). -/
abbrev TnLit : Type := String × Bool

/-- A model satisfies a literal when it gives the name the required value. -/
def tn_literal_holds (m : TnModel) (lit : TnLit) : Bool := m lit.1 == lit.2

/-- Satisfaction of `Z3_mk_and` over a list of literal constraints. -/
def tn_formula_sat (m : TnModel) (lits : List TnLit) : Bool :=
  lits.all (tn_literal_holds m)

/-- The inner double loop of `formula_initial_and_final_positions` (parts 1.A
and 2.A): for every `node < numNodes` and `h < stackSize`, skipping the pinned
pair `(pin, 0)`, the negative literal on `tn_path_variable node pos h`. -/
def boundary_node_lits (pin pos : Int) (numNodes stackSize : Nat) : List TnLit :=
  (List.range numNodes).flatMap (fun node =>
    (List.range stackSize).flatMap (fun h =>
      if (node : Int) = pin ∧ h = 0 then []
      else [(tn_path_variable node pos h, false)]))

/-- The stack loop of `formula_initial_and_final_positions` (parts 1.B and
2.B, `for h = 1; h < stack_size`): both symbol cells above height 0 are
empty. -/
def boundary_stack_lits (pos : Int) (stackSize : Nat) : List TnLit :=
  (List.range' 1 (stackSize - 1)).flatMap (fun h =>
    [(tn_4_variable pos h, false), (tn_6_variable pos h, false)])

/-- One half of `formula_initial_and_final_positions`: the constraints pinned
at position `pos` to node `pin` (parts 1 and 2 of the C function have this
exact common shape), in the order the C code pushes them into
`constraints[]`. -/
def boundary_block (pin pos : Int) (numNodes stackSize : Nat) : List TnLit :=
  [(tn_path_variable pin pos 0, true)]
    ++ boundary_node_lits pin pos numNodes stackSize
    ++ [(tn_4_variable pos 0, true), (tn_6_variable pos 0, false)]
    ++ boundary_stack_lits pos stackSize

/-- `formula_initial_and_final_positions`: the list of constraints the C
function accumulates into its local array `Z3_ast constraints[20]`, in
accumulation order; the returned formula is their conjunction
(`Z3_mk_and(ctx, k, constraints)`), whose satisfaction is `tn_formula_sat`. -/
def formula_initial_and_final_positions (numNodes : Nat) (s d : Int)
    (length : Nat) : List TnLit :=
  boundary_block s 0 numNodes (get_stack_size length)
    ++ boundary_block d length numNodes (get_stack_size length)

/-- The value `k` reaches in `formula_initial_and_final_positions`: the number
of constraints written into the 20-element local buffer. -/
def boundary_constraint_count (numNodes : Nat) (s d : Int) (length : Nat) : Nat :=
  (formula_initial_and_final_positions numNodes s d length).length

/-- Claim C6: `get_stack_size length` equals `⌊length/2⌋ + 1` for every
`length ≥ 0`: it satisfies the characterizing inequalities of the floor
(`2*(g-1) ≤ length < 2*g`), and in particular maps 10 to 6, 1 to 1 and
0 to 1. -/
theorem c6_stack_size (length : Nat) :
    get_stack_size length = length / 2 + 1 ∧
    2 * (get_stack_size length - 1) ≤ length ∧
    length < 2 * get_stack_size length ∧
    get_stack_size 10 = 6 ∧ get_stack_size 1 = 1 ∧ get_stack_size 0 = 1 := by
  refine ⟨rfl, ?_, ?_, rfl, rfl, rfl⟩ <;> simp only [get_stack_size] <;> omega

/-- Claim C9: the three variable constructors are referentially stable: equal
keys always yield the same underlying proposition, across every call site. -/
theorem c9_variable_stability (node pos height node' pos' height' : Int)
    (hn : node = node') (hp : pos = pos') (hh : height = height') :
    tn_path_variable node pos height = tn_path_variable node' pos' height' ∧
    tn_4_variable pos height = tn_4_variable pos' height' ∧
    tn_6_variable pos height = tn_6_variable pos' height' := by
  subst hn; subst hp; subst hh; exact ⟨rfl, rfl, rfl⟩

/-- Witness for C9 at the concrete key (2, 3, 1). -/
theorem c9_variable_stability_witness :
    tn_path_variable 2 3 1 = tn_path_variable 2 3 1 ∧
    tn_4_variable 3 1 = tn_4_variable 3 1 ∧
    tn_6_variable 3 1 = tn_6_variable 3 1 :=
  c9_variable_stability 2 3 1 2 3 1 rfl rfl rfl

/-- The ten action codes of the decoded steps (`transmit_4`, ..., `pop_6_6`
from the `TunnelNetwork.h` enumeration). -/
inductive TnAction where
  | transmit_4 | transmit_6
  | push_4_4 | push_4_6 | push_6_4 | push_6_6
  | pop_4_4 | pop_4_6 | pop_6_4 | pop_6_6
deriving DecidableEq, Repr

/-- A decoded step (`tn_step_create(action, src, tgt)`).  The C local
`int action = 0` is only overwritten when `|src_height - tgt_height| ≤ 1`;
the enumeration's numeric values live in `TunnelNetwork.h`, which is not part
of the sources, so the untouched initializer is modelled abstractly as
`none` and an assigned code as `some`. -/
structure TnStep where
  action : Option TnAction
  src : Int
  tgt : Int
deriving DecidableEq, Repr

/-- Placeholder step used only to state list-indexing facts via `List.getD`. -/
def tn_step_default : TnStep := { action := none, src := -1, tgt := -1 }

/-- The body of the decoder's double scan loop at a given `(n, height)`:
state is `((src, src_height), (tgt, tgt_height))`; a true path variable at
`pos` overwrites the source half, a true one at `pos + 1` the target half. -/
def tn_scan_update (m : TnModel) (pos : Int) (st : (Int × Int) × (Int × Int))
    (n h : Nat) : (Int × Int) × (Int × Int) :=
  let st1 := if m (tn_path_variable n pos h) then (((n : Int), (h : Int)), st.2) else st
  if m (tn_path_variable n (pos + 1) h) then (st1.1, ((n : Int), (h : Int))) else st1

/-- The decoder's scan at position `pos`: the nested
`for n / for height` loops of `tn_get_path_from_model`, starting from the
sentinel state `((-1, -1), (-1, -1))`. -/
def tn_scan (m : TnModel) (numNodes stackSize : Nat) (pos : Int) :
    (Int × Int) × (Int × Int) :=
  (List.range numNodes).foldl
    (fun st n => (List.range stackSize).foldl
      (fun st2 h => tn_scan_update m pos st2 n h) st)
    ((-1, -1), (-1, -1))

/-- The `action` classification chain of `tn_get_path_from_model`, verbatim
from the source's three height comparisons and nested symbol reads. -/
def tn_classify_action (m : TnModel) (pos : Int) (src_height tgt_height : Int) :
    Option TnAction :=
  if src_height = tgt_height then
    if m (tn_4_variable pos src_height) then some .transmit_4 else some .transmit_6
  else if src_height = tgt_height - 1 then
    if m (tn_4_variable pos src_height) then
      if m (tn_4_variable (pos + 1) tgt_height) then some .push_4_4 else some .push_4_6
    else if m (tn_4_variable (pos + 1) tgt_height) then some .push_6_4
    else some .push_6_6
  else if src_height = tgt_height + 1 then
    if m (tn_4_variable pos src_height) then
      if m (tn_4_variable (pos + 1) tgt_height) then some .pop_4_4 else some .pop_6_4
    else if m (tn_4_variable (pos + 1) tgt_height) then some .pop_4_6
    else some .pop_6_6
  else none

/-- One iteration of the decoder's outer `for pos` loop: the step written to
`path[pos]`. -/
def tn_decode_position (m : TnModel) (numNodes stackSize : Nat) (pos : Int) :
    TnStep :=
  let scan := tn_scan m numNodes stackSize pos
  { action := tn_classify_action m pos scan.1.2 scan.2.2
    src := scan.1.1
    tgt := scan.2.1 }

/-- `tn_get_path_from_model`: the array `path[0], ..., path[bound-1]` the C
function fills in, as a list. -/
def tn_get_path_from_model (m : TnModel) (nw : TunnelNetwork) (bound : Nat) :
    List TnStep :=
  (List.range bound).map
    (fun pos : Nat =>
      tn_decode_position m nw.numNodes (get_stack_size bound) (pos : Int))

/-- The scan's iteration order over `(node, height)` pairs: node-major, as in
the C nested loops. -/
def tn_pairs (numNodes stackSize : Nat) : List (Nat × Nat) :=
  (List.range numNodes).flatMap (fun n =>
    (List.range stackSize).map (fun h => (n, h)))

/-- A single overwrite scan over the flat pair list for position `q`. -/
def tn_scan_one (m : TnModel) (q : Int) (numNodes stackSize : Nat) : Int × Int :=
  (tn_pairs numNodes stackSize).foldl
    (fun acc nh => if m (tn_path_variable nh.1 q nh.2)
      then ((nh.1 : Int), (nh.2 : Int)) else acc)
    (-1, -1)

theorem tn_foldl_flatMap_map {α β γ : Type} (l1 : List α) (l2 : List β)
    (f : γ → α × β → γ) (init : γ) :
    l1.foldl (fun st a => l2.foldl (fun st2 b => f st2 (a, b)) st) init
      = (l1.flatMap (fun a => l2.map (fun b => (a, b)))).foldl f init := by
  induction l1 generalizing init with
  | nil => rfl
  | cons a t ih =>
      simp only [List.flatMap_cons, List.foldl_cons, List.foldl_append,
        List.foldl_map]
      exact ih _

theorem tn_foldl_prod_split {α A B : Type} (l : List α) (c1 c2 : α → Bool)
    (v : α → A) (w : α → B) (a : A) (b : B) :
    l.foldl (fun st x => ((if c1 x then v x else st.1), (if c2 x then w x else st.2))) (a, b)
      = (l.foldl (fun acc x => if c1 x then v x else acc) a,
         l.foldl (fun acc x => if c2 x then w x else acc) b) := by
  induction l generalizing a b with
  | nil => rfl
  | cons x t ih => exact ih _ _

theorem tn_scan_update_split (m : TnModel) (pos : Int)
    (st : (Int × Int) × (Int × Int)) (n h : Nat) :
    tn_scan_update m pos st n h
      = ((if m (tn_path_variable n pos h) then ((n : Int), (h : Int)) else st.1),
         (if m (tn_path_variable n (pos + 1) h) then ((n : Int), (h : Int)) else st.2)) := by
  unfold tn_scan_update
  by_cases h1 : m (tn_path_variable n pos h) <;>
    by_cases h2 : m (tn_path_variable n (pos + 1) h) <;> simp [h1, h2]

theorem tn_foldl_congr_fn {α β : Type} (l : List α) (f g : β → α → β)
    (init : β) (h : ∀ acc, ∀ x ∈ l, f acc x = g acc x) :
    l.foldl f init = l.foldl g init := by
  induction l generalizing init with
  | nil => rfl
  | cons a t ih =>
      simp only [List.foldl_cons]
      rw [h init a (List.mem_cons_self a t)]
      exact ih _ (fun acc x hx => h acc x (List.mem_cons_of_mem a hx))

/-- The decoder's interleaved scan decomposes into two independent overwrite
scans, at `pos` for the source half and at `pos + 1` for the target half. -/
theorem tn_scan_eq_scan_one (m : TnModel) (numNodes stackSize : Nat) (pos : Int) :
    tn_scan m numNodes stackSize pos
      = (tn_scan_one m pos numNodes stackSize,
         tn_scan_one m (pos + 1) numNodes stackSize) := by
  unfold tn_scan tn_scan_one tn_pairs
  rw [tn_foldl_flatMap_map (List.range numNodes) (List.range stackSize)
    (fun st2 nh => tn_scan_update m pos st2 nh.1 nh.2) ((-1, -1), (-1, -1))]
  rw [tn_foldl_congr_fn _ _
    (fun st nh => ((if m (tn_path_variable nh.1 pos nh.2) then ((nh.1 : Int), (nh.2 : Int)) else st.1),
      (if m (tn_path_variable nh.1 (pos + 1) nh.2) then ((nh.1 : Int), (nh.2 : Int)) else st.2)))
    _ (fun acc x _ => tn_scan_update_split m pos acc x.1 x.2)]
  rw [tn_foldl_prod_split]

theorem tn_foldl_pick_notin {α β : Type} (p : α → Bool) (f : α → β)
    (l : List α) (init : β) (h : ∀ x ∈ l, p x = false) :
    l.foldl (fun acc x => if p x then f x else acc) init = init := by
  induction l generalizing init with
  | nil => rfl
  | cons a t ih =>
      simp only [List.foldl_cons, h a (List.mem_cons_self a t), if_neg]
      exact ih _ (fun x hx => h x (List.mem_cons_of_mem a hx))

theorem tn_foldl_pick_fix {α β : Type} (p : α → Bool) (f : α → β)
    (l : List α) (init : β) (h : ∀ x ∈ l, p x = true → f x = init) :
    l.foldl (fun acc x => if p x then f x else acc) init = init := by
  induction l generalizing init with
  | nil => rfl
  | cons a t ih =>
      simp only [List.foldl_cons]
      by_cases ha : p a
      · rw [if_pos ha, h a (List.mem_cons_self a t) ha]
        exact ih _ (fun x hx => h x (List.mem_cons_of_mem a hx))
      · rw [if_neg ha]
        exact ih _ (fun x hx => h x (List.mem_cons_of_mem a hx))

theorem tn_foldl_pick_unique {α β : Type} (p : α → Bool) (f : α → β)
    (l : List α) (init : β) (x0 : α) (hmem : x0 ∈ l) (hp : p x0 = true)
    (huniq : ∀ x ∈ l, p x = true → x = x0) :
    l.foldl (fun acc x => if p x then f x else acc) init = f x0 := by
  induction l generalizing init with
  | nil => cases hmem
  | cons a t ih =>
      simp only [List.foldl_cons]
      by_cases ha : p a
      · have hax0 : a = x0 := huniq a (List.mem_cons_self a t) ha
        rw [if_pos ha, hax0]
        exact tn_foldl_pick_fix p f t (f x0)
          (fun x hx hpx => by rw [huniq x (List.mem_cons_of_mem a hx) hpx])
      · rw [if_neg ha]
        have hx0t : x0 ∈ t := by
          rcases List.mem_cons.mp hmem with h1 | h1
          · exact absurd (h1 ▸ hp) (by simp [ha])
          · exact h1
        exact ih _ hx0t (fun x hx => huniq x (List.mem_cons_of_mem a hx))

theorem tn_foldl_pick_getLast {α β : Type} (p : α → Bool) (f : α → β)
    (l : List α) (init : β) :
    l.foldl (fun acc x => if p x then f x else acc) init
      = match (l.filter p).getLast? with
        | none => init
        | some x => f x := by
  induction l using List.reverseRecOn with
  | nil => rfl
  | append_singleton t a ih =>
      rw [List.foldl_append, List.filter_append]
      simp only [List.foldl_cons, List.foldl_nil, List.filter]
      by_cases ha : p a
      · simp only [ha, if_pos, List.getLast?_append,
          List.getLast?_singleton, Option.or_some]
      · simp only [ha, Bool.false_eq_true, if_false, List.append_nil, ih]

theorem tn_pairs_mem (numNodes stackSize : Nat) (nh : Nat × Nat) :
    nh ∈ tn_pairs numNodes stackSize ↔ nh.1 < numNodes ∧ nh.2 < stackSize := by
  cases nh with
  | mk n h =>
      simp [tn_pairs, List.mem_flatMap, List.mem_map, List.mem_range]

/-- The sentinel interpretation of a scan result: `(-1, -1)` when no pair was
seen, otherwise the recorded pair. -/
def tn_sentinel : Option (Nat × Nat) → Int × Int
  | none => (-1, -1)
  | some nh => ((nh.1 : Int), (nh.2 : Int))

/-- The last `(node, height)` pair in the decoder's iteration order whose path
variable at position `q` is true, stated by the spec's words ("which
assignment the Decoder's scan reports"): the last element of the filtered
iteration sequence. -/
def tn_last_true_pair (m : TnModel) (q : Int) (numNodes stackSize : Nat) :
    Option (Nat × Nat) :=
  ((tn_pairs numNodes stackSize).filter
    (fun nh => m (tn_path_variable nh.1 q nh.2))).getLast?

theorem tn_scan_one_eq_last (m : TnModel) (q : Int) (numNodes stackSize : Nat) :
    tn_scan_one m q numNodes stackSize
      = tn_sentinel (tn_last_true_pair m q numNodes stackSize) := by
  unfold tn_scan_one tn_last_true_pair
  rw [tn_foldl_pick_getLast]
  cases ((tn_pairs numNodes stackSize).filter
    (fun nh => m (tn_path_variable nh.1 q nh.2))).getLast? with
  | none => rfl
  | some nh => rfl

/-- Claim C5, amended: the decoder's scan deterministically reports the LAST
true assignment encountered in its iteration order over nodes and heights
(each hit overwrites the previous one), for the source half at `pos` and the
target half at `pos + 1`. -/
theorem c5_scan_reports_last_true (m : TnModel) (numNodes stackSize : Nat)
    (pos : Int) :
    tn_scan m numNodes stackSize pos
      = (tn_sentinel (tn_last_true_pair m pos numNodes stackSize),
         tn_sentinel (tn_last_true_pair m (pos + 1) numNodes stackSize)) := by
  rw [tn_scan_eq_scan_one, tn_scan_one_eq_last, tn_scan_one_eq_last]

/-- Claim C5, counterexample to the claim as stated: on a two-node network
with stack size 1, a model making both `(node 0, height 0)` and
`(node 1, height 0)` true at position 0 is decoded with source node 1 — the
scan reports the LAST true assignment of its iteration order (node 0 is
visited before node 1), not the first one as claimed. -/
theorem c5_counterexample_first_not_reported :
    (fun t => (t == tn_path_variable 0 0 0) || (t == tn_path_variable 1 0 0) :
      TnModel) (tn_path_variable 0 0 0) = true ∧
    (fun t => (t == tn_path_variable 0 0 0) || (t == tn_path_variable 1 0 0) :
      TnModel) (tn_path_variable 1 0 0) = true ∧
    (tn_decode_position
      (fun t => (t == tn_path_variable 0 0 0) || (t == tn_path_variable 1 0 0))
      2 1 0).src = 1 ∧
    ((1 : Int) = 0) = False := by
  refine ⟨by decide, by decide, by decide, by decide⟩

/-- Claim C10: when a model makes no path variable true at `pos` nor at
`pos + 1` (over the scanned ranges), the decoder does not fail: both sentinel
heights stay `-1`, which compare equal, so the step is classified as a
transmit whose symbol is read from the symbol variable at height `-1`, and
both its source and target node are `-1`. -/
theorem c10_sentinel_step (m : TnModel) (numNodes stackSize : Nat) (pos : Int)
    (hnone : ∀ n < numNodes, ∀ h < stackSize,
      m (tn_path_variable n pos h) = false ∧ m (tn_path_variable n (pos + 1) h) = false) :
    tn_decode_position m numNodes stackSize pos
      = { action := some (if m (tn_4_variable pos (-1)) then TnAction.transmit_4
            else TnAction.transmit_6),
          src := -1, tgt := -1 } := by
  have hsrc : tn_scan_one m pos numNodes stackSize = (-1, -1) :=
    tn_foldl_pick_notin _ _ _ _ (fun x hx => by
      rcases (tn_pairs_mem numNodes stackSize x).mp hx with ⟨h1, h2⟩
      exact (hnone x.1 h1 x.2 h2).1)
  have htgt : tn_scan_one m (pos + 1) numNodes stackSize = (-1, -1) :=
    tn_foldl_pick_notin _ _ _ _ (fun x hx => by
      rcases (tn_pairs_mem numNodes stackSize x).mp hx with ⟨h1, h2⟩
      exact (hnone x.1 h1 x.2 h2).2)
  unfold tn_decode_position
  rw [tn_scan_eq_scan_one, hsrc, htgt]
  simp only [tn_classify_action, if_pos rfl]
  by_cases h4 : m (tn_4_variable pos (-1)) <;> simp [h4]

/-- Witness for C10: the all-false model on a two-node network. -/
theorem c10_sentinel_step_witness :
    tn_decode_position (fun _ => false) 2 1 0
      = { action := some TnAction.transmit_6, src := -1, tgt := -1 } := by
  have h := c10_sentinel_step (fun _ => false) 2 1 0
    (fun n _ h _ => ⟨rfl, rfl⟩)
  simpa using h

theorem tn_sat_mem (m : TnModel) (lits : List TnLit) (lit : TnLit)
    (hsat : tn_formula_sat m lits = true) (hmem : lit ∈ lits) :
    m lit.1 = lit.2 := by
  have h := List.all_eq_true.mp hsat lit hmem
  simpa [tn_literal_holds] using h

theorem tn_sat_append (m : TnModel) (l1 l2 : List TnLit)
    (hsat : tn_formula_sat m (l1 ++ l2) = true) :
    tn_formula_sat m l1 = true ∧ tn_formula_sat m l2 = true := by
  simpa [tn_formula_sat, List.all_append, Bool.and_eq_true] using hsat

theorem tn_block_mem_pin (pin pos : Int) (numNodes stackSize : Nat) :
    ((tn_path_variable pin pos 0, true) : TnLit)
      ∈ boundary_block pin pos numNodes stackSize := by
  simp [boundary_block]

theorem tn_block_mem_node (pin pos : Int) (numNodes stackSize : Nat)
    (n h : Nat) (hn : n < numNodes) (hh : h < stackSize)
    (hne : ¬((n : Int) = pin ∧ h = 0)) :
    ((tn_path_variable n pos h, false) : TnLit)
      ∈ boundary_block pin pos numNodes stackSize := by
  have hmem : ((tn_path_variable n pos h, false) : TnLit)
      ∈ boundary_node_lits pin pos numNodes stackSize := by
    unfold boundary_node_lits
    rw [List.mem_flatMap]
    refine ⟨n, List.mem_range.mpr hn, ?_⟩
    rw [List.mem_flatMap]
    refine ⟨h, List.mem_range.mpr hh, ?_⟩
    rw [if_neg hne]
    exact List.mem_singleton.mpr rfl
  simp [boundary_block, hmem]

theorem tn_block_mem_sym4 (pin pos : Int) (numNodes stackSize : Nat) :
    ((tn_4_variable pos 0, true) : TnLit)
      ∈ boundary_block pin pos numNodes stackSize := by
  simp [boundary_block]

theorem tn_block_mem_sym6 (pin pos : Int) (numNodes stackSize : Nat) :
    ((tn_6_variable pos 0, false) : TnLit)
      ∈ boundary_block pin pos numNodes stackSize := by
  simp [boundary_block]

theorem tn_block_mem_stack (pin pos : Int) (numNodes stackSize : Nat)
    (h : Nat) (h1 : 1 ≤ h) (hh : h < stackSize) :
    ((tn_4_variable pos h, false) : TnLit)
        ∈ boundary_block pin pos numNodes stackSize ∧
    ((tn_6_variable pos h, false) : TnLit)
        ∈ boundary_block pin pos numNodes stackSize := by
  have hrange : h ∈ List.range' 1 (stackSize - 1) := by
    rw [List.mem_range'_1]
    omega
  have hmem4 : ((tn_4_variable pos h, false) : TnLit)
      ∈ boundary_stack_lits pos stackSize := by
    unfold boundary_stack_lits
    rw [List.mem_flatMap]
    exact ⟨h, hrange, by simp⟩
  have hmem6 : ((tn_6_variable pos h, false) : TnLit)
      ∈ boundary_stack_lits pos stackSize := by
    unfold boundary_stack_lits
    rw [List.mem_flatMap]
    exact ⟨h, hrange, by simp⟩
  exact ⟨by simp [boundary_block, hmem4], by simp [boundary_block, hmem6]⟩

/-- All the facts a model satisfying one boundary block must make true. -/
theorem tn_block_facts (m : TnModel) (pin pos : Int) (numNodes stackSize : Nat)
    (hsat : tn_formula_sat m (boundary_block pin pos numNodes stackSize) = true) :
    m (tn_path_variable pin pos 0) = true ∧
    (∀ n < numNodes, ∀ h < stackSize, ¬((n : Int) = pin ∧ h = 0) →
      m (tn_path_variable n pos h) = false) ∧
    m (tn_4_variable pos 0) = true ∧ m (tn_6_variable pos 0) = false ∧
    (∀ h, 1 ≤ h → h < stackSize →
      m (tn_4_variable pos h) = false ∧ m (tn_6_variable pos h) = false) := by
  refine ⟨tn_sat_mem m _ _ hsat (tn_block_mem_pin pin pos numNodes stackSize),
    fun n hn h hh hne =>
      tn_sat_mem m _ _ hsat (tn_block_mem_node pin pos numNodes stackSize n h hn hh hne),
    tn_sat_mem m _ _ hsat (tn_block_mem_sym4 pin pos numNodes stackSize),
    tn_sat_mem m _ _ hsat (tn_block_mem_sym6 pin pos numNodes stackSize),
    fun h h1 hh =>
      ⟨tn_sat_mem m _ _ hsat (tn_block_mem_stack pin pos numNodes stackSize h h1 hh).1,
       tn_sat_mem m _ _ hsat (tn_block_mem_stack pin pos numNodes stackSize h h1 hh).2⟩⟩

/-- The per-block "exactly one scanned pair is true" consequence: over the
ranges the other components scan, the only true path variable of the pinned
position is the pinned pair. -/
theorem tn_block_unique_pair (m : TnModel) (pin pos : Int)
    (numNodes stackSize : Nat)
    (hsat : tn_formula_sat m (boundary_block pin pos numNodes stackSize) = true)
    (_hp0 : 0 ≤ pin) (_hpN : pin < numNodes) :
    ∀ n < numNodes, ∀ h < stackSize,
      (m (tn_path_variable n pos h) = true ↔ ((n : Int) = pin ∧ h = 0)) := by
  obtain ⟨hpin, hothers, -⟩ := tn_block_facts m pin pos numNodes stackSize hsat
  intro n hn h hh
  constructor
  · intro htrue
    by_contra hne
    exact absurd htrue (by rw [hothers n hn h hh hne]; simp)
  · rintro ⟨hn0, hh0⟩
    subst hh0
    have : (n : Int) = pin := hn0
    rw [show ((n : Int)) = pin from this, Nat.cast_zero]
    exact hpin

/-- Claim C2: any model satisfying the boundary sub-formula makes the initial
pair `(s, 0)` true at position 0 and every other scanned `(node, height)`
pair false there — so exactly one pair holds at position 0, and it is
`(initialNode, 0)` —, forces the stack at position 0 to exactly `[4]`
(cell 0 holds 4 and not 6, all higher cells hold neither symbol), and
symmetrically at position `length` for the final node `d`. -/
theorem c2_boundary_model_semantics (m : TnModel) (numNodes : Nat) (s d : Int)
    (length : Nat)
    (hsat : tn_formula_sat m
      (formula_initial_and_final_positions numNodes s d length) = true)
    (hs0 : 0 ≤ s) (hsN : s < numNodes) (hd0 : 0 ≤ d) (hdN : d < numNodes) :
    m (tn_path_variable s 0 0) = true ∧
    (∀ n < numNodes, ∀ h < get_stack_size length,
      (m (tn_path_variable n 0 h) = true ↔ ((n : Int) = s ∧ h = 0))) ∧
    m (tn_4_variable 0 0) = true ∧ m (tn_6_variable 0 0) = false ∧
    (∀ h, 1 ≤ h → h < get_stack_size length →
      m (tn_4_variable 0 h) = false ∧ m (tn_6_variable 0 h) = false) ∧
    m (tn_path_variable d length 0) = true ∧
    (∀ n < numNodes, ∀ h < get_stack_size length,
      (m (tn_path_variable n length h) = true ↔ ((n : Int) = d ∧ h = 0))) ∧
    m (tn_4_variable length 0) = true ∧ m (tn_6_variable length 0) = false ∧
    (∀ h, 1 ≤ h → h < get_stack_size length →
      m (tn_4_variable length h) = false ∧ m (tn_6_variable length h) = false) := by
  obtain ⟨h0, hL⟩ := tn_sat_append m _ _ hsat
  obtain ⟨hpin0, -, hy40, hy60, hstack0⟩ :=
    tn_block_facts m s 0 numNodes (get_stack_size length) h0
  obtain ⟨hpinL, -, hy4L, hy6L, hstackL⟩ :=
    tn_block_facts m d length numNodes (get_stack_size length) hL
  exact ⟨hpin0,
    tn_block_unique_pair m s 0 numNodes (get_stack_size length) h0 hs0 hsN,
    hy40, hy60, hstack0, hpinL,
    tn_block_unique_pair m d length numNodes (get_stack_size length) hL hd0 hdN,
    hy4L, hy6L, hstackL⟩

/-- Witness for C2: the one-node network, `length = 1`, and the model making
exactly the four pinned variables true satisfies the boundary formula, and the
theorem yields the pinned initial variable. -/
theorem c2_boundary_model_semantics_witness :
    tn_formula_sat
      (fun t => (t == tn_path_variable 0 0 0) || (t == tn_path_variable 0 1 0)
        || (t == tn_4_variable 0 0) || (t == tn_4_variable 1 0))
      (formula_initial_and_final_positions 1 0 0 1) = true ∧
    (fun t => (t == tn_path_variable 0 0 0) || (t == tn_path_variable 0 1 0)
      || (t == tn_4_variable 0 0) || (t == tn_4_variable 1 0) : TnModel)
      (tn_path_variable 0 0 0) = true :=
  ⟨by decide,
   (c2_boundary_model_semantics
     (fun t => (t == tn_path_variable 0 0 0) || (t == tn_path_variable 0 1 0)
       || (t == tn_4_variable 0 0) || (t == tn_4_variable 1 0))
     1 0 0 1 (by decide) (by decide) (by decide) (by decide) (by decide)).1⟩

/-- Claim C1 fails on the code: on the single-node network with
`length = 6` (so `stack_size = 4`), `formula_initial_and_final_positions`
accumulates 24 constraints, which exceeds the 20-element local buffer
`Z3_ast constraints[20]` the C function writes them into. -/
theorem c1_boundary_count_exceeds_buffer :
    boundary_constraint_count 1 0 0 6 = 24 ∧ 20 < boundary_constraint_count 1 0 0 6 := by
  constructor <;> decide

/-- The per-position uniqueness invariant the Uniqueness Constraint (whose
builder `formula_unique_node_per_position` is only a prototype in the
sources) guarantees for a position: some scanned `(node, height)` pair is
true, and no two distinct scanned pairs are both true. -/
def tn_unique_pair_at (m : TnModel) (numNodes stackSize : Nat) (pos : Int) :
    Prop :=
  (∃ n < numNodes, ∃ h < stackSize, m (tn_path_variable n pos h) = true) ∧
  (∀ n < numNodes, ∀ h < stackSize, ∀ n' < numNodes, ∀ h' < stackSize,
    m (tn_path_variable n pos h) = true →
    m (tn_path_variable n' pos h') = true → n = n' ∧ h = h')

theorem tn_decode_src (m : TnModel) (numNodes stackSize : Nat) (pos : Int) :
    (tn_decode_position m numNodes stackSize pos).src
      = (tn_scan_one m pos numNodes stackSize).1 := by
  unfold tn_decode_position
  rw [tn_scan_eq_scan_one]

theorem tn_decode_tgt (m : TnModel) (numNodes stackSize : Nat) (pos : Int) :
    (tn_decode_position m numNodes stackSize pos).tgt
      = (tn_scan_one m (pos + 1) numNodes stackSize).1 := by
  unfold tn_decode_position
  rw [tn_scan_eq_scan_one]

theorem tn_scan_one_of_unique (m : TnModel) (q : Int) (numNodes stackSize : Nat)
    (n0 h0 : Nat) (hn0 : n0 < numNodes) (hh0 : h0 < stackSize)
    (hp : m (tn_path_variable n0 q h0) = true)
    (hu : ∀ n < numNodes, ∀ h < stackSize,
      m (tn_path_variable n q h) = true → n = n0 ∧ h = h0) :
    tn_scan_one m q numNodes stackSize = ((n0 : Int), (h0 : Int)) := by
  unfold tn_scan_one
  exact tn_foldl_pick_unique _ _ _ _ (n0, h0)
    ((tn_pairs_mem numNodes stackSize (n0, h0)).mpr ⟨hn0, hh0⟩) hp
    (fun x hx hpx => by
      rcases (tn_pairs_mem numNodes stackSize x).mp hx with ⟨h1, h2⟩
      rcases hu x.1 h1 x.2 h2 hpx with ⟨e1, e2⟩
      exact Prod.ext e1 e2)

/-- Claim C3: for any model satisfying the boundary conjunct of the full
formula and the per-position uniqueness invariant, the decoder run with
`bound = length` outputs exactly `length` steps, the first step leaves the
initial node, the last step reaches the final node, and consecutive steps
chain (`target(i) = source(i+1)`). -/
theorem c3_decoder_round_trip (m : TnModel) (nw : TunnelNetwork) (length : Nat)
    (hsat : tn_formula_sat m
      (formula_initial_and_final_positions nw.numNodes nw.initial nw.final length) = true)
    (_huniq : ∀ pos : Nat, pos ≤ length →
      tn_unique_pair_at m nw.numNodes (get_stack_size length) pos)
    (hs0 : 0 ≤ nw.initial) (hsN : nw.initial < nw.numNodes)
    (hd0 : 0 ≤ nw.final) (hdN : nw.final < nw.numNodes)
    (hlen : 0 < length) :
    (tn_get_path_from_model m nw length).length = length ∧
    ((tn_get_path_from_model m nw length).getD 0 tn_step_default).src = nw.initial ∧
    ((tn_get_path_from_model m nw length).getD (length - 1) tn_step_default).tgt
      = nw.final ∧
    (∀ i, i + 1 < length →
      ((tn_get_path_from_model m nw length).getD i tn_step_default).tgt
        = ((tn_get_path_from_model m nw length).getD (i + 1) tn_step_default).src) := by
  obtain ⟨hb0, hbL⟩ := tn_sat_append m _ _ hsat
  have hgetD : ∀ i : Nat, i < length →
      (tn_get_path_from_model m nw length).getD i tn_step_default
        = tn_decode_position m nw.numNodes (get_stack_size length) i := by
    intro i hi
    unfold tn_get_path_from_model
    rw [List.getD_eq_getElem?_getD, List.getElem?_map, List.getElem?_range hi]
    rfl
  refine ⟨by simp [tn_get_path_from_model], ?_, ?_, ?_⟩
  · rw [hgetD 0 hlen, tn_decode_src]
    obtain ⟨hpin, hothers, -⟩ :=
      tn_block_facts m nw.initial 0 nw.numNodes (get_stack_size length) hb0
    have hscan : tn_scan_one m ((0 : Nat) : Int) nw.numNodes (get_stack_size length)
        = ((nw.initial.toNat : Int), ((0 : Nat) : Int)) := by
      apply tn_scan_one_of_unique
      · omega
      · simp [get_stack_size]
      · rw [show ((nw.initial.toNat : Int)) = nw.initial by omega]
        rw [show (((0 : Nat) : Int)) = (0 : Int) by omega]
        exact hpin
      · intro n hn h hh htrue
        by_contra hcon
        have hne : ¬((n : Int) = nw.initial ∧ h = 0) := by omega
        apply absurd htrue
        rw [show (((0 : Nat) : Int)) = (0 : Int) by omega]
        rw [hothers n hn h hh hne]
        simp
    rw [hscan]
    show ((nw.initial.toNat : Int)) = nw.initial
    omega
  · rw [hgetD (length - 1) (by omega), tn_decode_tgt]
    obtain ⟨hpin, hothers, -⟩ :=
      tn_block_facts m nw.final length nw.numNodes (get_stack_size length) hbL
    have hq : (((length - 1 : Nat)) : Int) + 1 = ((length : Nat) : Int) := by omega
    rw [hq]
    have hscan : tn_scan_one m ((length : Nat) : Int) nw.numNodes (get_stack_size length)
        = ((nw.final.toNat : Int), ((0 : Nat) : Int)) := by
      apply tn_scan_one_of_unique
      · omega
      · simp [get_stack_size]
      · rw [show ((nw.final.toNat : Int)) = nw.final by omega, Nat.cast_zero]
        exact hpin
      · intro n hn h hh htrue
        by_contra hcon
        have hne : ¬((n : Int) = nw.final ∧ h = 0) := by omega
        exact absurd htrue (by rw [hothers n hn h hh hne]; simp)
    rw [hscan]
    show ((nw.final.toNat : Int)) = nw.final
    omega
  · intro i hi
    rw [hgetD i (by omega), hgetD (i + 1) hi, tn_decode_tgt, tn_decode_src]
    have hq : ((i : Nat) : Int) + 1 = (((i + 1 : Nat)) : Int) := by omega
    rw [hq]

/-- Witness for C3: the one-node network with `length = 1` and the model of
the C2 witness; the decoded path has exactly one step. -/
theorem c3_decoder_round_trip_witness :
    tn_formula_sat
      (fun t => (t == tn_path_variable 0 0 0) || (t == tn_path_variable 0 1 0)
        || (t == tn_4_variable 0 0) || (t == tn_4_variable 1 0))
      (formula_initial_and_final_positions 1 0 0 1) = true ∧
    (tn_get_path_from_model
      (fun t => (t == tn_path_variable 0 0 0) || (t == tn_path_variable 0 1 0)
        || (t == tn_4_variable 0 0) || (t == tn_4_variable 1 0))
      { numNodes := 1, initial := 0, final := 0, nodeName := fun _ => "s" }
      1).length = 1 :=
  ⟨by decide,
   (c3_decoder_round_trip
     (fun t => (t == tn_path_variable 0 0 0) || (t == tn_path_variable 0 1 0)
       || (t == tn_4_variable 0 0) || (t == tn_4_variable 1 0))
     { numNodes := 1, initial := 0, final := 0, nodeName := fun _ => "s" }
     1 (by decide)
     (by intro pos hpos
         interval_cases pos <;>
           exact ⟨⟨0, by decide, 0, by decide, by decide⟩,
             fun n hn h hh n' hn' h' hh' _ _ => by
               simp only [get_stack_size] at hh hh'
               have hn1 : n < 1 := hn
               have hn2 : n' < 1 := hn'
               omega⟩)
     (by decide) (by decide) (by decide) (by decide) (by decide)).1⟩

/-- Recognizer for the two transmit action codes. -/
def tn_action_is_transmit : Option TnAction → Bool
  | some TnAction.transmit_4 => true
  | some TnAction.transmit_6 => true
  | _ => false

/-- Recognizer for the four push action codes. -/
def tn_action_is_push : Option TnAction → Bool
  | some TnAction.push_4_4 => true
  | some TnAction.push_4_6 => true
  | some TnAction.push_6_4 => true
  | some TnAction.push_6_6 => true
  | _ => false

/-- Recognizer for the four pop action codes. -/
def tn_action_is_pop : Option TnAction → Bool
  | some TnAction.pop_4_4 => true
  | some TnAction.pop_4_6 => true
  | some TnAction.pop_6_4 => true
  | some TnAction.pop_6_6 => true
  | _ => false

theorem tn_decode_action (m : TnModel) (numNodes stackSize : Nat) (pos : Int) :
    (tn_decode_position m numNodes stackSize pos).action
      = tn_classify_action m pos (tn_scan m numNodes stackSize pos).1.2
          (tn_scan m numNodes stackSize pos).2.2 := rfl

theorem tn_classify_cases (m : TnModel) (pos a b : Int) :
    (tn_action_is_transmit (tn_classify_action m pos a b) = true ↔ a = b) ∧
    (tn_action_is_push (tn_classify_action m pos a b) = true ↔ a = b - 1) ∧
    (tn_action_is_pop (tn_classify_action m pos a b) = true ↔ a = b + 1) := by
  unfold tn_classify_action
  split_ifs <;>
    simp [tn_action_is_transmit, tn_action_is_push, tn_action_is_pop] <;>
      omega

/-- Claim C4: when a model determines a unique source pair `(src, sh)` at
`pos` and a unique target pair `(tgt, th)` at `pos + 1` over the scanned
ranges, the decoded action kind is a transmit iff the heights are equal, a
push iff the target height is one more, and a pop iff it is one less, and the
specific symbol sub-case is exactly the one read off the `4`-symbol variables
at `(pos, sh)` and `(pos + 1, th)`. -/
theorem c4_action_classification (m : TnModel) (numNodes stackSize : Nat)
    (pos : Int) (src sh tgt th : Nat)
    (hsrcN : src < numNodes) (hshS : sh < stackSize)
    (htgtN : tgt < numNodes) (hthS : th < stackSize)
    (hsrcT : m (tn_path_variable src pos sh) = true)
    (hsrcU : ∀ n < numNodes, ∀ h < stackSize,
      m (tn_path_variable n pos h) = true → n = src ∧ h = sh)
    (htgtT : m (tn_path_variable tgt (pos + 1) th) = true)
    (htgtU : ∀ n < numNodes, ∀ h < stackSize,
      m (tn_path_variable n (pos + 1) h) = true → n = tgt ∧ h = th) :
    (tn_action_is_transmit (tn_decode_position m numNodes stackSize pos).action = true
      ↔ ((sh : Int)) = ((th : Int))) ∧
    (tn_action_is_push (tn_decode_position m numNodes stackSize pos).action = true
      ↔ ((th : Int)) = ((sh : Int)) + 1) ∧
    (tn_action_is_pop (tn_decode_position m numNodes stackSize pos).action = true
      ↔ ((th : Int)) = ((sh : Int)) - 1) ∧
    (((sh : Int)) = ((th : Int)) →
      (tn_decode_position m numNodes stackSize pos).action
        = some (if m (tn_4_variable pos sh) then TnAction.transmit_4
            else TnAction.transmit_6)) ∧
    (((th : Int)) = ((sh : Int)) + 1 →
      (tn_decode_position m numNodes stackSize pos).action
        = some (if m (tn_4_variable pos sh) then
              (if m (tn_4_variable (pos + 1) th) then TnAction.push_4_4
               else TnAction.push_4_6)
            else if m (tn_4_variable (pos + 1) th) then TnAction.push_6_4
            else TnAction.push_6_6)) ∧
    (((th : Int)) = ((sh : Int)) - 1 →
      (tn_decode_position m numNodes stackSize pos).action
        = some (if m (tn_4_variable pos sh) then
              (if m (tn_4_variable (pos + 1) th) then TnAction.pop_4_4
               else TnAction.pop_6_4)
            else if m (tn_4_variable (pos + 1) th) then TnAction.pop_4_6
            else TnAction.pop_6_6)) := by
  have hscan : tn_scan m numNodes stackSize pos
      = (((src : Int), (sh : Int)), ((tgt : Int), (th : Int))) := by
    rw [tn_scan_eq_scan_one,
      tn_scan_one_of_unique m pos numNodes stackSize src sh hsrcN hshS hsrcT hsrcU,
      tn_scan_one_of_unique m (pos + 1) numNodes stackSize tgt th htgtN hthS htgtT htgtU]
  have hact : (tn_decode_position m numNodes stackSize pos).action
      = tn_classify_action m pos ((sh : Int)) ((th : Int)) := by
    rw [tn_decode_action, hscan]
  obtain ⟨hT, hP, hPop⟩ := tn_classify_cases m pos ((sh : Int)) ((th : Int))
  refine ⟨by rw [hact]; exact hT, by rw [hact, hP]; omega,
    by rw [hact, hPop]; omega, ?_, ?_, ?_⟩
  · intro he
    rw [hact]
    unfold tn_classify_action
    rw [if_pos he]
    split_ifs <;> rfl
  · intro he
    rw [hact]
    unfold tn_classify_action
    rw [if_neg (by omega), if_pos (by omega : ((sh : Int)) = ((th : Int)) - 1)]
    split_ifs <;> rfl
  · intro he
    rw [hact]
    unfold tn_classify_action
    rw [if_neg (by omega), if_neg (by omega),
      if_pos (by omega : ((sh : Int)) = ((th : Int)) + 1)]
    split_ifs <;> rfl

/-- Witness for C4: a model pinning `(node 0, height 0)` at positions 5 and 6
of a one-node network; the decoded action is a transmit and heights agree. -/
theorem c4_action_classification_witness :
    (fun t => (t == tn_path_variable 0 5 0) || (t == tn_path_variable 0 6 0) :
      TnModel) (tn_path_variable 0 5 0) = true ∧
    (tn_action_is_transmit
       (tn_decode_position
         (fun t => (t == tn_path_variable 0 5 0) || (t == tn_path_variable 0 6 0))
         1 1 5).action = true
      ↔ (((0 : Nat) : Int)) = (((0 : Nat) : Int))) :=
  ⟨by decide,
   (c4_action_classification
     (fun t => (t == tn_path_variable 0 5 0) || (t == tn_path_variable 0 6 0))
     1 1 5 0 0 0 0 (by decide) (by decide) (by decide) (by decide)
     (by decide) (fun n hn h hh _ => by omega)
     (by decide) (fun n hn h hh _ => by omega)).1⟩

/-- One iteration of `tn_print_model`'s state-listing loop: a true path
variable appends its `"(name,height) "` rendering and bumps `num_seen`. -/
def tn_state_step (m : TnModel) (nw : TunnelNetwork) (pos : Int)
    (st : String × Nat) (node h : Nat) : String × Nat :=
  if m (tn_path_variable node pos h) then
    (st.1 ++ "(" ++ nw.nodeName node ++ "," ++ toString h ++ ") ", st.2 + 1)
  else st

/-- The state listing of one position: the printed pair list and `num_seen`. -/
def tn_state_scan (m : TnModel) (nw : TunnelNetwork) (numNodes stackSize : Nat)
    (pos : Int) : String × Nat :=
  (List.range numNodes).foldl
    (fun st node => (List.range stackSize).foldl
      (fun st2 h => tn_state_step m nw pos st2 node h) st)
    ("", 0)

/-- One iteration of `tn_print_model`'s stack-rendering loop: state is
`(output, misdefined, above_top)`, following the C branches for conflict
(`|X`), `|4`, `|6` and the empty cell. -/
def tn_stack_step (m : TnModel) (pos : Int) (st : String × Bool × Bool)
    (h : Nat) : String × Bool × Bool :=
  if m (tn_4_variable pos h) then
    if m (tn_6_variable pos h) then (st.1 ++ "|X", true, st.2.2)
    else (st.1 ++ "|4", st.2.1 || st.2.2, st.2.2)
  else if m (tn_6_variable pos h) then (st.1 ++ "|6", st.2.1 || st.2.2, st.2.2)
  else (st.1 ++ "| ", st.2.1, true)

/-- The stack rendering of one position with its two flags. -/
def tn_stack_scan (m : TnModel) (stackSize : Nat) (pos : Int) :
    String × Bool × Bool :=
  (List.range stackSize).foldl (tn_stack_step m pos) ("", false, false)

/-- The full diagnostic output of one position of `tn_print_model`, in print
order: header, state listing, the zero/several warnings, the stack line, and
the ill-defined-stack warning when the `misdefined` flag is set. -/
def tn_render_position (m : TnModel) (nw : TunnelNetwork)
    (numNodes stackSize : Nat) (pos : Int) : String :=
  "At pos " ++ toString pos ++ ":\nState: "
    ++ (tn_state_scan m nw numNodes stackSize pos).1
    ++ (if (tn_state_scan m nw numNodes stackSize pos).2 = 0
        then "No node at that position !\n" else "\n")
    ++ (if 1 < (tn_state_scan m nw numNodes stackSize pos).2
        then "Several pair node,height!\n" else "")
    ++ "Stack: " ++ (tn_stack_scan m stackSize pos).1 ++ "\n"
    ++ (if (tn_stack_scan m stackSize pos).2.1
        then "Warning: ill-defined stack\n" else "")

/-- `tn_print_model`: the whole diagnostic output, positions 0 to `bound`. -/
def tn_print_model (m : TnModel) (nw : TunnelNetwork) (bound : Nat) : String :=
  String.join ((List.range (bound + 1)).map
    (fun pos : Nat =>
      tn_render_position m nw nw.numNodes (get_stack_size bound) (pos : Int)))

/-- A cell whose two symbol variables are both true (printed `|X`). -/
def tn_cell_conflict (m : TnModel) (pos : Int) (h : Nat) : Bool :=
  m (tn_4_variable pos h) && m (tn_6_variable pos h)

/-- A cell holding exactly one of the two symbols (printed `|4` or `|6`). -/
def tn_cell_single (m : TnModel) (pos : Int) (h : Nat) : Bool :=
  m (tn_4_variable pos h) != m (tn_6_variable pos h)

/-- An empty cell: both symbol variables false (printed `| `). -/
def tn_cell_empty (m : TnModel) (pos : Int) (h : Nat) : Bool :=
  !(m (tn_4_variable pos h)) && !(m (tn_6_variable pos h))

/-- The "floating cell" detector: some cell holding exactly one symbol occurs
after the first empty cell (`above` records whether an empty cell was already
passed). -/
def tn_float (m : TnModel) (pos : Int) : Bool → List Nat → Bool
  | _, [] => false
  | above, h :: t =>
      (above && tn_cell_single m pos h)
        || tn_float m pos (above || tn_cell_empty m pos h) t

theorem tn_state_scan_count_aux (m : TnModel) (nw : TunnelNetwork) (pos : Int)
    (l : List (Nat × Nat)) : ∀ st : String × Nat,
    (l.foldl (fun st2 nh => tn_state_step m nw pos st2 nh.1 nh.2) st).2
      = st.2 + l.countP (fun nh => m (tn_path_variable nh.1 pos nh.2)) := by
  induction l with
  | nil => intro st; simp
  | cons a t ih =>
      intro st
      rw [List.foldl_cons, ih, List.countP_cons]
      unfold tn_state_step
      by_cases ha : m (tn_path_variable a.1 pos a.2)
      · simp [ha]
        try omega
      · simp [ha]
        try omega

/-- The renderer's `num_seen` counter counts the true path variables over the
scanned pairs. -/
theorem tn_state_scan_count (m : TnModel) (nw : TunnelNetwork)
    (numNodes stackSize : Nat) (pos : Int) :
    (tn_state_scan m nw numNodes stackSize pos).2
      = (tn_pairs numNodes stackSize).countP
          (fun nh => m (tn_path_variable nh.1 pos nh.2)) := by
  unfold tn_state_scan
  rw [tn_foldl_flatMap_map (List.range numNodes) (List.range stackSize)
    (fun st2 nh => tn_state_step m nw pos st2 nh.1 nh.2) ("", 0)]
  rw [tn_state_scan_count_aux]
  simp [tn_pairs]

theorem tn_stack_scan_flags_aux (m : TnModel) (pos : Int) (l : List Nat) :
    ∀ (out : String) (mis ab : Bool),
    ((l.foldl (tn_stack_step m pos) (out, mis, ab)).2.1
        = (mis || l.any (tn_cell_conflict m pos) || tn_float m pos ab l)) ∧
    ((l.foldl (tn_stack_step m pos) (out, mis, ab)).2.2
        = (ab || l.any (tn_cell_empty m pos))) := by
  induction l with
  | nil => intro out mis ab; simp [tn_float]
  | cons h t ih =>
      intro out mis ab
      rw [List.foldl_cons]
      by_cases h4 : m (tn_4_variable pos h) <;> by_cases h6 : m (tn_6_variable pos h)
      · -- conflict cell
        simp only [tn_stack_step, h4, h6, if_pos]
        rw [(ih _ _ _).1, (ih _ _ _).2]
        constructor
        · simp [tn_float, tn_cell_conflict, tn_cell_single, tn_cell_empty, h4, h6]
        · simp [tn_cell_empty, h4, h6]
      · -- cell holds 4 only
        simp only [tn_stack_step, h4, h6, if_pos, if_neg, Bool.false_eq_true,
          not_false_eq_true]
        rw [(ih _ _ _).1, (ih _ _ _).2]
        constructor
        · simp only [tn_float, tn_cell_conflict, tn_cell_single, tn_cell_empty,
            h4, h6, List.any_cons]
          cases mis <;> cases ab <;> simp
        · simp [tn_cell_empty, h4, h6]
      · -- cell holds 6 only
        simp only [tn_stack_step, h4, h6, if_pos, if_neg, Bool.false_eq_true,
          not_false_eq_true]
        rw [(ih _ _ _).1, (ih _ _ _).2]
        constructor
        · simp only [tn_float, tn_cell_conflict, tn_cell_single, tn_cell_empty,
            h4, h6, List.any_cons]
          cases mis <;> cases ab <;> simp
        · simp [tn_cell_empty, h4, h6]
      · -- empty cell
        simp only [tn_stack_step, h4, h6, if_neg, Bool.false_eq_true,
          not_false_eq_true]
        rw [(ih _ _ _).1, (ih _ _ _).2]
        constructor
        · simp only [tn_float, tn_cell_conflict, tn_cell_single, tn_cell_empty,
            h4, h6, List.any_cons]
          cases mis <;> cases ab <;> simp
        · simp [tn_cell_empty, h4, h6]

/-- The floating-cell detector over a contiguous height interval, in
existential form. -/
theorem tn_float_range' (m : TnModel) (pos : Int) (n : Nat) :
    ∀ (s : Nat) (ab : Bool),
    (tn_float m pos ab (List.range' s n) = true
      ↔ ∃ h, s ≤ h ∧ h < s + n ∧ tn_cell_single m pos h = true ∧
          (ab = true ∨ ∃ h', s ≤ h' ∧ h' < h ∧ tn_cell_empty m pos h' = true)) := by
  induction n with
  | zero =>
      intro s ab
      simp only [List.range', tn_float]
      constructor
      · intro hfalse
        cases hfalse
      · rintro ⟨h, h1, h2, -⟩
        omega
  | succ n ih =>
      intro s ab
      rw [List.range'_succ]
      rw [show tn_float m pos ab (s :: List.range' (s + 1) n)
          = ((ab && tn_cell_single m pos s)
              || tn_float m pos (ab || tn_cell_empty m pos s) (List.range' (s + 1) n))
         from rfl]
      rw [Bool.or_eq_true, Bool.and_eq_true, ih]
      constructor
      · rintro (⟨hab, hsingle⟩ | ⟨h, h1, h2, hsingle, hcond⟩)
        · exact ⟨s, le_refl s, by omega, hsingle, Or.inl hab⟩
        · refine ⟨h, by omega, by omega, hsingle, ?_⟩
          rcases hcond with hcond | ⟨h', h1', h2', hemp⟩
          · rw [Bool.or_eq_true] at hcond
            rcases hcond with hab | hemp
            · exact Or.inl hab
            · exact Or.inr ⟨s, le_refl s, by omega, hemp⟩
          · exact Or.inr ⟨h', by omega, h2', hemp⟩
      · rintro ⟨h, h1, h2, hsingle, hcond⟩
        by_cases hhs : h = s
        · subst hhs
          rcases hcond with hab | ⟨h', h1', h2', -⟩
          · exact Or.inl ⟨hab, hsingle⟩
          · omega
        · refine Or.inr ⟨h, by omega, by omega, hsingle, ?_⟩
          rcases hcond with hab | ⟨h', h1', h2', hemp⟩
          · exact Or.inl (by simp [hab])
          · by_cases hh's : h' = s
            · subst hh's
              exact Or.inl (by simp [hemp])
            · exact Or.inr ⟨h', by omega, h2', hemp⟩

/-- The renderer's `misdefined` flag, characterized: set exactly when some
cell is in conflict, or some cell holding exactly one symbol lies above an
empty cell. -/
theorem tn_stack_scan_misdefined (m : TnModel) (stackSize : Nat) (pos : Int) :
    ((tn_stack_scan m stackSize pos).2.1 = true
      ↔ ((∃ h < stackSize, tn_cell_conflict m pos h = true) ∨
         (∃ h < stackSize, tn_cell_single m pos h = true ∧
           ∃ h' < h, tn_cell_empty m pos h' = true))) := by
  unfold tn_stack_scan
  rw [(tn_stack_scan_flags_aux m pos (List.range stackSize) "" false false).1]
  rw [List.range_eq_range']
  simp only [Bool.false_or, Bool.or_eq_true, List.any_eq_true]
  rw [tn_float_range' m pos stackSize 0 false]
  constructor
  · rintro (⟨h, hmem, hconf⟩ | ⟨h, -, h2, hsingle, hcond⟩)
    · exact Or.inl ⟨h, by
        rcases List.mem_range'_1.mp hmem with ⟨-, hlt⟩
        omega, hconf⟩
    · rcases hcond with hfalse | ⟨h', -, h2', hemp⟩
      · cases hfalse
      · exact Or.inr ⟨h, by omega, hsingle, h', h2', hemp⟩
  · rintro (⟨h, hlt, hconf⟩ | ⟨h, hlt, hsingle, h', hlt', hemp⟩)
    · exact Or.inl ⟨h, List.mem_range'_1.mpr ⟨by omega, by omega⟩, hconf⟩
    · exact Or.inr ⟨h, by omega, by omega, hsingle,
        Or.inr ⟨h', by omega, hlt', hemp⟩⟩

/-- Claim C7: `tn_print_model`'s per-position output is a total function of
the model whose diagnostics are exactly: the no-node line when zero scanned
pairs are true, the several-pairs line when more than one is, and the
ill-defined-stack warning precisely when some cell has both symbols true or
some cell with exactly one symbol true lies above an empty cell. -/
theorem c7_renderer_warnings (m : TnModel) (nw : TunnelNetwork)
    (numNodes stackSize : Nat) (pos : Int) :
    tn_render_position m nw numNodes stackSize pos
      = "At pos " ++ toString pos ++ ":\nState: "
        ++ (tn_state_scan m nw numNodes stackSize pos).1
        ++ (if (tn_pairs numNodes stackSize).countP
              (fun nh => m (tn_path_variable nh.1 pos nh.2)) = 0
            then "No node at that position !\n" else "\n")
        ++ (if 1 < (tn_pairs numNodes stackSize).countP
              (fun nh => m (tn_path_variable nh.1 pos nh.2))
            then "Several pair node,height!\n" else "")
        ++ "Stack: " ++ (tn_stack_scan m stackSize pos).1 ++ "\n"
        ++ (if (∃ h < stackSize, tn_cell_conflict m pos h = true) ∨
              (∃ h < stackSize, tn_cell_single m pos h = true ∧
                ∃ h' < h, tn_cell_empty m pos h' = true)
            then "Warning: ill-defined stack\n" else "") := by
  unfold tn_render_position
  rw [tn_state_scan_count]
  by_cases hc : (∃ h < stackSize, tn_cell_conflict m pos h = true) ∨
      (∃ h < stackSize, tn_cell_single m pos h = true ∧
        ∃ h' < h, tn_cell_empty m pos h' = true)
  · rw [if_pos ((tn_stack_scan_misdefined m stackSize pos).mpr hc), if_pos hc]
  · rw [if_neg (fun hf => hc ((tn_stack_scan_misdefined m stackSize pos).mp hf)),
      if_neg hc]

/-- Claim C8: the renderer is a pure function of its inputs: two models that
agree on every variable the renderer can query (path variables over the
scanned node/position/height ranges and symbol variables over the scanned
position/height ranges) produce byte-identical diagnostic output; in
particular two runs on the same model are byte-identical, and no hidden
mutable state can influence the rendering. -/
theorem c8_renderer_deterministic (m1 m2 : TnModel) (nw : TunnelNetwork)
    (bound : Nat)
    (hpath : ∀ n < nw.numNodes, ∀ pos ≤ bound, ∀ h < get_stack_size bound,
      m1 (tn_path_variable n pos h) = m2 (tn_path_variable n pos h))
    (hsym : ∀ pos ≤ bound, ∀ h < get_stack_size bound,
      m1 (tn_4_variable pos h) = m2 (tn_4_variable pos h) ∧
      m1 (tn_6_variable pos h) = m2 (tn_6_variable pos h)) :
    tn_print_model m1 nw bound = tn_print_model m2 nw bound := by
  unfold tn_print_model
  apply congrArg String.join
  apply List.map_congr_left
  intro pos hpos
  have hposle : pos ≤ bound := by
    have := List.mem_range.mp hpos
    omega
  unfold tn_render_position
  have hstate : tn_state_scan m1 nw nw.numNodes (get_stack_size bound) pos
      = tn_state_scan m2 nw nw.numNodes (get_stack_size bound) pos := by
    unfold tn_state_scan
    apply tn_foldl_congr_fn
    intro acc node hnode
    apply tn_foldl_congr_fn
    intro acc2 h hh
    unfold tn_state_step
    rw [hpath node (List.mem_range.mp hnode) pos hposle h (List.mem_range.mp hh)]
  have hstack : tn_stack_scan m1 (get_stack_size bound) pos
      = tn_stack_scan m2 (get_stack_size bound) pos := by
    unfold tn_stack_scan
    apply tn_foldl_congr_fn
    intro acc h hh
    unfold tn_stack_step
    rw [(hsym pos hposle h (List.mem_range.mp hh)).1,
      (hsym pos hposle h (List.mem_range.mp hh)).2]
  rw [hstate, hstack]

/-- Witness for C8: equal models trivially agree on every queried variable,
and the outputs coincide. -/
theorem c8_renderer_deterministic_witness :
    tn_print_model (fun _ => false)
        { numNodes := 1, initial := 0, final := 0, nodeName := fun _ => "s" } 0
      = tn_print_model (fun _ => false)
        { numNodes := 1, initial := 0, final := 0, nodeName := fun _ => "s" } 0 :=
  c8_renderer_deterministic (fun _ => false) (fun _ => false)
    { numNodes := 1, initial := 0, final := 0, nodeName := fun _ => "s" } 0
    (fun _ _ _ _ _ _ => rfl) (fun _ _ _ _ => ⟨rfl, rfl⟩)
